import Mathlib

/-!
Verification of the slice-composition core of zustand-sliced.

The repository composes namespaced "slice" definitions into one zustand
store.  Two runtime entry points exist:

* `src/middleware.ts` (here: the `scopedSet` / `fullGet` / `sliced`
  family): a zustand StateCreator that, for each slice key, builds a
  scoped mutator committing through `api.setState(fn, false, key ++ "/set")`
  and a global reader `() => api.getState()`.
* `src/index.ts` (here: the `Standalone` definitions): the same
  construction loop, but it owns the engine via `createStore` and a
  late-bound `let store` placeholder cell.

The embedding models JS objects as ordered association lists of fields,
JS object spread as `jsSpread`, and the zustand engine contract
(`setState` applies a transition function to the current state and
shallow-merges the returned record, synchronously visible to the next
`getState`) as `applySetState` over an explicitly threaded composite
state.
-/

namespace ZustandSliced

/-- Value universe for slice fields: enough of the JS values used by the
repository (numbers, strings, lists of strings, null). -/
inductive Val where
  | num : Int → Val
  | str : String → Val
  | strList : List String → Val
  | vnull : Val
deriving DecidableEq, Repr

/-- A slice record: a JS object modelled as an ordered field list. -/
abbrev SliceRec := List (String × Val)

/-- The composite state: a JS object mapping each slice key to its record. -/
abbrev CompositeState := List (String × SliceRec)

/-- JS property read `o[k]` on an object modelled as an ordered field list
(first occurrence; ordered field lists built by the code have unique keys). -/
def jsLookup {α : Type} (o : List (String × α)) (k : String) : Option α :=
  match o with
  | [] => none
  | (k', v) :: rest => if k' = k then some v else jsLookup rest k

/-- `Object.keys`, in order. -/
def keysOf {α : Type} (o : List (String × α)) : List String :=
  o.map Prod.fst

/-- Remove every field named `k` from an ordered field list. -/
def jsRemove {α : Type} (o : List (String × α)) (k : String) :
    List (String × α) :=
  match o with
  | [] => []
  | kv :: rest => if kv.1 = k then jsRemove rest k else kv :: jsRemove rest k

/-- JS object spread of two objects: fields of `a` keep their
position, values overridden by `b` where `b` has the same key; keys of `b`
absent from `a` are appended in the order of `b`. -/
def jsSpread {α : Type} (a b : List (String × α)) : List (String × α) :=
  match a with
  | [] => b
  | (k, v) :: rest =>
      (k, (jsLookup b k).getD v) :: jsSpread rest (jsRemove b k)

/-- The argument accepted by a scoped mutator (middleware.ts line 69):
either a direct object of fields to merge, or an updater function from the
current slice record to an object of fields — where the updater may return
nothing (`undefined`), modelled as `none`. -/
inductive Update where
  | obj : SliceRec → Update
  | updFn : (SliceRec → Option SliceRec) → Update

/-- JS read `prev[key]` followed by spreading: a missing key gives
`undefined`, and spreading `undefined` behaves as spreading the empty
object, so the record seen under `key` defaults to the empty record. -/
def currentRec (st : CompositeState) (key : String) : SliceRec :=
  (jsLookup st key).getD []

/-- The transition function `scopedSet` passes to `api.setState`
(middleware.ts lines 76-84): given the current composite state, if the
update is a function it is applied to `prev[key]`; an `undefined` result
is returned through unchanged (`none`); otherwise a one-key object is
built whose value is the spread of the previous slice record with the
update fields. -/
def scopedTransition (key : String) (u : Update) (prev : CompositeState) :
    Option CompositeState :=
  let prevSlice := currentRec prev key
  match u with
  | .updFn f =>
      match f prevSlice with
      | none => none
      | some result => some [(key, jsSpread prevSlice result)]
  | .obj p => some [(key, jsSpread prevSlice p)]

/-- The full argument triple of one `api.setState` call: the transition
function, the `replace` flag, and the devtools action label. -/
structure SetStateCall where
  transition : CompositeState → Option CompositeState
  replace : Bool
  action : Option String

/-- Engine contract for `setState` (zustand vanilla, spec section 6): the
transition function is applied to the current state; an `undefined`
result leaves the state value unchanged; otherwise the returned record is
committed, by wholesale replacement when `replace` is set and by shallow
merge into the current state otherwise. -/
def applySetState (st : CompositeState)
    (t : CompositeState → Option CompositeState) (replace : Bool) :
    CompositeState :=
  match t st with
  | none => st
  | some nxt => if replace then nxt else jsSpread st nxt

/-- The exact `api.setState` call issued by the scoped mutator
(middleware.ts lines 75-87): the scoped transition, `replace = false`,
and the action label `key ++ "/set"`. -/
def scopedSetCall (key : String) (u : Update) : SetStateCall :=
  { transition := scopedTransition key u
    replace := false
    action := some (key ++ "/set") }

/-- The scoped mutator of middleware.ts (lines 68-88), as a state
transformer: it issues its `SetStateCall` against the engine. -/
def scopedSet (key : String) (u : Update) (st : CompositeState) :
    CompositeState :=
  applySetState st (scopedSetCall key u).transition (scopedSetCall key u).replace

/-- The global reader `fullGet = () => api.getState()` (middleware.ts
line 90): a fresh synchronous read of the engine state at call time. -/
def fullGet (st : CompositeState) : CompositeState :=
  st

/-- A synchronous chain of scoped-mutator calls, applied in call order. -/
def applyMutations (ms : List (String × Update)) (st : CompositeState) :
    CompositeState :=
  match ms with
  | [] => st
  | (k, u) :: rest => applyMutations rest (scopedSet k u st)

-- ---------------------------------------------------------------------------
-- Helper lemmas on the JS object model
-- ---------------------------------------------------------------------------

theorem jsLookup_jsRemove_ne {α : Type} (b : List (String × α)) (k k' : String)
    (h : k ≠ k') : jsLookup (jsRemove b k') k = jsLookup b k := by
  induction b with
  | nil => rfl
  | cons kv rest ih =>
    by_cases hk : kv.1 = k'
    · have hne : ¬kv.1 = k := by
        intro hkk
        exact h (hkk ▸ hk)
      simp [jsRemove, hk, jsLookup, hne, ih, h.symm]
    · by_cases hkk : kv.1 = k
      · simp [jsRemove, hk, jsLookup, hkk, h]
      · simp [jsRemove, hk, jsLookup, hkk, ih]

theorem jsLookup_jsSpread {α : Type} (a b : List (String × α)) (k : String) :
    jsLookup (jsSpread a b) k =
      match jsLookup b k with
      | some w => some w
      | none => jsLookup a k := by
  induction a generalizing b with
  | nil =>
    simp only [jsSpread, jsLookup]
    cases jsLookup b k <;> rfl
  | cons kv rest ih =>
    simp only [jsSpread, jsLookup]
    by_cases hk : kv.1 = k
    · subst hk
      cases hb : jsLookup b kv.1 <;> simp [jsLookup, hb, Option.getD]
    · rw [ih (jsRemove b kv.1)]
      rw [jsLookup_jsRemove_ne b k kv.1 (fun hkk => hk hkk.symm)]
      simp [jsLookup, hk]

theorem jsSpread_nil_right {α : Type} (a : List (String × α)) :
    jsSpread a [] = a := by
  induction a with
  | nil => rfl
  | cons kv rest ih => simp [jsSpread, jsLookup, jsRemove, ih]

theorem keysOf_jsSpread_singleton {α : Type} (a : List (String × α))
    (key : String) (r : α) (hmem : key ∈ keysOf a) :
    keysOf (jsSpread a [(key, r)]) = keysOf a := by
  induction a with
  | nil => simp [keysOf] at hmem
  | cons kv rest ih =>
    by_cases hk : kv.1 = key
    · subst hk
      simp [jsSpread, keysOf, jsRemove, jsSpread_nil_right]
    · have hmem' : key ∈ keysOf rest := by
        simp only [keysOf, List.map, List.mem_cons] at hmem
        rcases hmem with h | h
        · exact absurd h.symm hk
        · simpa [keysOf] using h
      have hrem : jsRemove [(key, r)] kv.1 = [(key, r)] := by
        have : ¬key = kv.1 := fun h => hk h.symm
        simp [jsRemove, this]
      simp only [jsSpread, keysOf, List.map, hrem]
      simpa [keysOf] using ih hmem'

theorem jsLookup_singleton_ne {α : Type} (key k : String) (r : α)
    (h : key ≠ k) : jsLookup [(key, r)] k = none := by
  simp [jsLookup, h]

theorem jsLookup_singleton_self {α : Type} (key : String) (r : α) :
    jsLookup [(key, r)] key = some r := by
  simp [jsLookup]

-- ---------------------------------------------------------------------------
-- Behaviour of the scoped mutator
-- ---------------------------------------------------------------------------

theorem scopedSet_lookup_ne (key k : String) (u : Update)
    (st : CompositeState) (hne : k ≠ key) :
    jsLookup (scopedSet key u st) k = jsLookup st k := by
  unfold scopedSet applySetState scopedSetCall
  simp only []
  cases htr : scopedTransition key u st with
  | none => rfl
  | some nxt =>
    have hsingle : ∃ r, nxt = [(key, r)] := by
      unfold scopedTransition at htr
      cases u with
      | obj p =>
        exact ⟨_, by simpa using htr.symm⟩
      | updFn f =>
        cases hf : f (currentRec st key) with
        | none => simp [hf] at htr
        | some result =>
          simp only [hf] at htr
          exact ⟨_, by simpa using htr.symm⟩
    rcases hsingle with ⟨r, rfl⟩
    simp only [Bool.false_eq_true, if_false]
    rw [jsLookup_jsSpread]
    rw [jsLookup_singleton_ne key k r (fun h => hne h.symm)]

theorem scopedSet_keys (key : String) (u : Update) (st : CompositeState)
    (hmem : key ∈ keysOf st) :
    keysOf (scopedSet key u st) = keysOf st := by
  unfold scopedSet applySetState scopedSetCall
  simp only []
  cases htr : scopedTransition key u st with
  | none => rfl
  | some nxt =>
    have hsingle : ∃ r, nxt = [(key, r)] := by
      unfold scopedTransition at htr
      cases u with
      | obj p =>
        exact ⟨_, by simpa using htr.symm⟩
      | updFn f =>
        cases hf : f (currentRec st key) with
        | none => simp [hf] at htr
        | some result =>
          simp only [hf] at htr
          exact ⟨_, by simpa using htr.symm⟩
    rcases hsingle with ⟨r, rfl⟩
    simp only [Bool.false_eq_true, if_false]
    exact keysOf_jsSpread_singleton st key r hmem

-- ---------------------------------------------------------------------------
-- C1
-- ---------------------------------------------------------------------------

/-- C1: in any composite state that contains the mutated key (true of
every reachable state of a store built from the slice definitions, for
any number of slices), a scoped-mutator call changes at most that key:
the record at every other key is unchanged and the set of top-level keys
neither grows nor shrinks. -/
theorem C1_scopedSet_isolates (key : String) (u : Update)
    (st : CompositeState) (hmem : key ∈ keysOf st) :
    (∀ k, k ≠ key → jsLookup (scopedSet key u st) k = jsLookup st k) ∧
      keysOf (scopedSet key u st) = keysOf st :=
  ⟨fun k hk => scopedSet_lookup_ne key k u st hk,
   scopedSet_keys key u st hmem⟩

theorem C1_scopedSet_isolates_witness :
    "a" ∈ keysOf ([("a", [("x", Val.num 1)]), ("b", [("y", Val.num 2)])] :
        CompositeState) ∧
      ((∀ k, k ≠ "a" →
          jsLookup (scopedSet "a" (.obj [("x", Val.num 5)])
            [("a", [("x", Val.num 1)]), ("b", [("y", Val.num 2)])] ) k =
          jsLookup ([("a", [("x", Val.num 1)]), ("b", [("y", Val.num 2)])] :
            CompositeState) k) ∧
        keysOf (scopedSet "a" (.obj [("x", Val.num 5)])
            [("a", [("x", Val.num 1)]), ("b", [("y", Val.num 2)])]) =
          keysOf ([("a", [("x", Val.num 1)]), ("b", [("y", Val.num 2)])] :
            CompositeState)) :=
  ⟨by decide,
   C1_scopedSet_isolates "a" (.obj [("x", Val.num 5)])
     [("a", [("x", Val.num 1)]), ("b", [("y", Val.num 2)])] (by decide)⟩

theorem scopedSet_obj_eq (key : String) (p : SliceRec) (st : CompositeState) :
    scopedSet key (.obj p) st =
      jsSpread st [(key, jsSpread (currentRec st key) p)] :=
  rfl

-- ---------------------------------------------------------------------------
-- C2
-- ---------------------------------------------------------------------------

/-- C2: the global reader is the identity on the current engine state (a
fresh `api.getState()` read on every call, never a cached snapshot), so
reading immediately after any scoped-mutator commit — here, a commit
performed after an arbitrary earlier chain of mutations by any slices in
the same synchronous call chain — returns a composite state whose value
at the mutated key is the just-applied merge, computed from the state
right before that commit, not from the construction-time state. -/
theorem C2_fullGet_fresh (init : CompositeState) (ms : List (String × Update))
    (key : String) (p : SliceRec) :
    (∀ st, fullGet st = st) ∧
      jsLookup (fullGet (scopedSet key (.obj p) (applyMutations ms init))) key =
        some (jsSpread (currentRec (applyMutations ms init) key) p) := by
  refine ⟨fun st => rfl, ?_⟩
  show jsLookup (scopedSet key (.obj p) (applyMutations ms init)) key = _
  rw [scopedSet_obj_eq, jsLookup_jsSpread, jsLookup_singleton_self]

-- ---------------------------------------------------------------------------
-- C3
-- ---------------------------------------------------------------------------

/-- C3: committing a partial record through the scoped mutator stores, at
the mutated key, exactly the object-level shallow merge of the previous
record with the update: fields of the prior record not named in the
update keep their previous value, fields named in the update take the
value from the update, and fields new in the update are added. -/
theorem C3_merge_semantics (key : String) (p prev : SliceRec)
    (st : CompositeState) (hprev : jsLookup st key = some prev) :
    jsLookup (scopedSet key (.obj p) st) key = some (jsSpread prev p) ∧
      (∀ f, jsLookup p f = none →
        jsLookup (jsSpread prev p) f = jsLookup prev f) ∧
      (∀ f v, jsLookup p f = some v →
        jsLookup (jsSpread prev p) f = some v) := by
  refine ⟨?_, ?_, ?_⟩
  · rw [scopedSet_obj_eq, jsLookup_jsSpread, jsLookup_singleton_self,
      currentRec, hprev]
    rfl
  · intro f hf
    rw [jsLookup_jsSpread, hf]
  · intro f v hf
    rw [jsLookup_jsSpread, hf]

theorem C3_merge_semantics_witness :
    jsLookup ([("k", [("a", Val.num 1), ("b", Val.num 2)])] : CompositeState)
        "k" = some [("a", Val.num 1), ("b", Val.num 2)] ∧
      (jsLookup (scopedSet "k" (.obj [("b", Val.num 9), ("c", Val.num 3)])
          [("k", [("a", Val.num 1), ("b", Val.num 2)])]) "k" =
        some (jsSpread [("a", Val.num 1), ("b", Val.num 2)]
          [("b", Val.num 9), ("c", Val.num 3)]) ∧
        (∀ f, jsLookup [("b", Val.num 9), ("c", Val.num 3)] f = none →
          jsLookup (jsSpread [("a", Val.num 1), ("b", Val.num 2)]
              [("b", Val.num 9), ("c", Val.num 3)]) f =
            jsLookup [("a", Val.num 1), ("b", Val.num 2)] f) ∧
        (∀ f v, jsLookup [("b", Val.num 9), ("c", Val.num 3)] f = some v →
          jsLookup (jsSpread [("a", Val.num 1), ("b", Val.num 2)]
              [("b", Val.num 9), ("c", Val.num 3)]) f = some v)) :=
  ⟨by decide,
   C3_merge_semantics "k" [("b", Val.num 9), ("c", Val.num 3)]
     [("a", Val.num 1), ("b", Val.num 2)]
     [("k", [("a", Val.num 1), ("b", Val.num 2)])] (by decide)⟩

-- ---------------------------------------------------------------------------
-- C4
-- ---------------------------------------------------------------------------

/-- C4: an updater function handed to the scoped mutator is applied to the
record at the mutated key of the state the engine passes to the
transition at call time — not to a record captured earlier — so after a
prior mutation in the same chain, the later updater resolves against the
post-mutation record of the intermediate state, never against the record
of the original state. -/
theorem C4_updater_reads_fresh (key1 key2 : String) (u1 : Update)
    (f : SliceRec → Option SliceRec) (st : CompositeState) :
    (scopedSet key2 (.updFn f) st =
      applySetState st
        (fun prev =>
          scopedTransition key2 (.updFn (fun _ => f (currentRec prev key2))) prev)
        false) ∧
      scopedSet key2 (.updFn f) (scopedSet key1 u1 st) =
        scopedSet key2
          (.updFn (fun _ => f (currentRec (scopedSet key1 u1 st) key2)))
          (scopedSet key1 u1 st) :=
  ⟨rfl, rfl⟩

-- ---------------------------------------------------------------------------
-- Exceptional updater (for C5)
-- ---------------------------------------------------------------------------

/-- The scoped mutator when the updater function may throw (error type
`ε`): `api.setState` applies the transition to the current state first,
so an exception raised inside the updater escapes before any commit and
no new state is produced; on success the behaviour coincides with
`scopedSet` on the corresponding non-throwing updater. -/
def scopedSetExn {ε : Type} (key : String)
    (f : SliceRec → Except ε (Option SliceRec)) (st : CompositeState) :
    Except ε CompositeState :=
  match f (currentRec st key) with
  | .error e => .error e
  | .ok none => .ok st
  | .ok (some result) =>
      .ok (jsSpread st [(key, jsSpread (currentRec st key) result)])

theorem scopedSetExn_ok_eq_scopedSet (key : String)
    (f : SliceRec → Option SliceRec) (st : CompositeState) :
    scopedSetExn (ε := Empty) key (fun r => .ok (f r)) st =
      .ok (scopedSet key (.updFn f) st) := by
  unfold scopedSetExn scopedSet applySetState scopedSetCall scopedTransition
  cases hf : f (currentRec st key) <;> simp [hf]

-- ---------------------------------------------------------------------------
-- C5
-- ---------------------------------------------------------------------------

/-- C5: a scoped-mutator call has no partial-failure mode: if the updater
throws, the call propagates the error and no commit has happened (the
composite state is untouched, since no `.ok` state is produced); if the
call succeeds, exactly one transition commits, and it replaces only the
mutated slot — the record at every other key is unchanged. -/
theorem C5_no_partial_failure {ε : Type} (key : String)
    (f : SliceRec → Except ε (Option SliceRec)) (st : CompositeState) :
    (∀ e, f (currentRec st key) = .error e → scopedSetExn key f st = .error e) ∧
      (∀ st', scopedSetExn key f st = .ok st' →
        ∀ k, k ≠ key → jsLookup st' k = jsLookup st k) := by
  constructor
  · intro e he
    unfold scopedSetExn
    rw [he]
  · intro st' hok k hk
    unfold scopedSetExn at hok
    cases hf : f (currentRec st key) with
    | error e => rw [hf] at hok; exact absurd hok (by simp)
    | ok o =>
      cases o with
      | none =>
        rw [hf] at hok
        cases hok
        rfl
      | some result =>
        rw [hf] at hok
        cases hok
        rw [jsLookup_jsSpread,
          jsLookup_singleton_ne key k _ (fun h => hk h.symm)]

theorem C5_no_partial_failure_witness :
    ((fun _ => (Except.error 7 : Except Nat (Option SliceRec)))
        (currentRec [("k", [("x", Val.num 1)]), ("b", [("y", Val.num 2)])] "k")
        = Except.error 7 ∧
      scopedSetExn "k" (fun _ => (Except.error 7 : Except Nat (Option SliceRec)))
        [("k", [("x", Val.num 1)]), ("b", [("y", Val.num 2)])] =
        Except.error 7) ∧
      (scopedSetExn (ε := Nat) "k" (fun _ => Except.ok (some [("x", Val.num 9)]))
          [("k", [("x", Val.num 1)]), ("b", [("y", Val.num 2)])] =
          Except.ok [("k", [("x", Val.num 9)]), ("b", [("y", Val.num 2)])] ∧
        ("b" : String) ≠ "k" ∧
        jsLookup ([("k", [("x", Val.num 9)]), ("b", [("y", Val.num 2)])] :
            CompositeState) "b" =
          jsLookup ([("k", [("x", Val.num 1)]), ("b", [("y", Val.num 2)])] :
            CompositeState) "b") :=
  ⟨⟨rfl,
    (C5_no_partial_failure "k" (fun _ => Except.error 7)
      [("k", [("x", Val.num 1)]), ("b", [("y", Val.num 2)])]).1 7 rfl⟩,
   rfl,
   by decide,
   (C5_no_partial_failure (ε := Nat) "k"
      (fun _ => Except.ok (some [("x", Val.num 9)]))
      [("k", [("x", Val.num 1)]), ("b", [("y", Val.num 2)])]).2
     [("k", [("x", Val.num 9)]), ("b", [("y", Val.num 2)])] rfl
     "b" (by decide)⟩

-- ---------------------------------------------------------------------------
-- C8
-- ---------------------------------------------------------------------------

/-- C8: when the updater returns nothing, the transition built by the
scoped mutator passes the sentinel through to the engine as-is,
constructing no merged record for the key; a direct partial-record
update — the empty record included — always constructs a one-key merge
object, so "no return value" and "empty object" are distinguishable at
the transition level. -/
theorem C8_void_sentinel (key : String) (f : SliceRec → Option SliceRec)
    (st : CompositeState) (hf : f (currentRec st key) = none) :
    scopedTransition key (.updFn f) st = none ∧
      ∀ p, scopedTransition key (.obj p) st =
        some [(key, jsSpread (currentRec st key) p)] := by
  constructor
  · simp [scopedTransition, hf]
  · intro p
    rfl

theorem C8_void_sentinel_witness :
    (fun _ => (none : Option SliceRec))
        (currentRec [("k", ([("x", Val.num 1)] : SliceRec))] "k") = none ∧
      scopedTransition "k" (.updFn (fun _ => none))
        [("k", [("x", Val.num 1)])] = none ∧
      scopedTransition "k" (.obj []) [("k", [("x", Val.num 1)])] =
        some [("k", jsSpread
          (currentRec [("k", ([("x", Val.num 1)] : SliceRec))] "k") [])] :=
  ⟨rfl,
   (C8_void_sentinel "k" (fun _ => none) [("k", [("x", Val.num 1)])] rfl).1,
   (C8_void_sentinel "k" (fun _ => none) [("k", [("x", Val.num 1)])] rfl).2 []⟩

-- ---------------------------------------------------------------------------
-- C10
-- ---------------------------------------------------------------------------

/-- C10: every engine call issued through a scoped mutator carries the
`replace` flag set to `false` and a third action-label argument equal to
the slice key followed by "/set", so a labelling layer always observes a
per-slice action name and the core never requests wholesale replacement
of the composite state. -/
theorem C10_setState_call_shape (key : String) (u : Update) :
    (scopedSetCall key u).replace = false ∧
      (scopedSetCall key u).action = some (key ++ "/set") :=
  ⟨rfl, rfl⟩

-- ---------------------------------------------------------------------------
-- Standalone store (index.ts): construction loop and placeholder cell
-- ---------------------------------------------------------------------------

/-- The scoped mutator of the standalone entry point (index.ts lines
105-116): like `scopedSet` but with no undefined check, no replace flag
and no action label — the updater result is spread directly into the
previous slice record, and spreading `undefined` adds no fields. -/
def scopedSetStandalone (key : String) (u : Update) (st : CompositeState) :
    CompositeState :=
  let prevSlice := currentRec st key
  let nextPart : Option SliceRec :=
    match u with
    | .updFn f => f prevSlice
    | .obj p => some p
  jsSpread st [(key, jsSpread prevSlice (nextPart.getD []))]

/-- A slice initializer: receives the scoped mutator built for its key
and the global reader, and returns the initial slice record. -/
abbrev SliceCreator :=
  (Update → CompositeState → CompositeState) →
    (CompositeState → CompositeState) → SliceRec

/-- The construction loop of index.ts (lines 101-122): for each key in
mapping iteration order, build the capabilities bound to that key,
invoke the initializer with them, and store the returned record at the
key in the accumulator. The second component is the invocation log: one
entry per initializer call, in call order. -/
def buildSlices (defs : List (String × SliceCreator)) :
    CompositeState × List String :=
  match defs with
  | [] => ([], [])
  | (key, creator) :: rest =>
      let record := creator (scopedSetStandalone key) fullGet
      let result := buildSlices rest
      ((key, record) :: result.1, key :: result.2)

/-- `createStore(() => initialState)` (index.ts line 124): the engine
seeds its state with the value the state-creator function returns. -/
def createStoreInit (creator : Unit → CompositeState) : CompositeState :=
  creator ()

/-- The standalone `sliced` (index.ts lines 94-135): runs the
construction loop, then constructs the engine with the completed
accumulator; the value is the engine initial composite state. -/
def sliced (defs : List (String × SliceCreator)) : CompositeState :=
  createStoreInit (fun _ => (buildSlices defs).1)

-- ---------------------------------------------------------------------------
-- C6
-- ---------------------------------------------------------------------------

/-- C6: the construction loop invokes every slice initializer exactly
once, synchronously and sequentially in mapping iteration order (the
invocation log equals the key list of the mapping), passes each one the
scoped mutator bound to its own key together with the global reader,
stores the returned record as the initial record at its key, and the
completed accumulator becomes the engine initial composite state. -/
theorem C6_construction (defs : List (String × SliceCreator)) :
    (buildSlices defs).2 = keysOf defs ∧
      (buildSlices defs).1 =
        defs.map (fun kc => (kc.1, kc.2 (scopedSetStandalone kc.1) fullGet)) ∧
      sliced defs = (buildSlices defs).1 := by
  refine ⟨?_, ?_, rfl⟩
  · induction defs with
    | nil => rfl
    | cons kc rest ih => simp [buildSlices, keysOf, ih]
  · induction defs with
    | nil => rfl
    | cons kc rest ih => simp [buildSlices, ih]

-- ---------------------------------------------------------------------------
-- C7
-- ---------------------------------------------------------------------------

/-- JS faults observable in the embedding; a method access on an
undefined binding raises a TypeError. -/
inductive JsError where
  | typeError
deriving DecidableEq

/-- The `let store` placeholder of index.ts (line 97): `none` until the
assignment on line 124 resolves it to the constructed engine. Reading a
method off the unresolved (undefined) binding throws a TypeError. -/
def readPlaceholder (cell : Option CompositeState) :
    Except JsError CompositeState :=
  match cell with
  | none => .error .typeError
  | some st => .ok st

/-- The global reader `() => store.getState()` routed through the
placeholder cell. -/
def fullGetStandalone (cell : Option CompositeState) :
    Except JsError CompositeState :=
  readPlaceholder cell

/-- The scoped mutator routed through the placeholder cell:
`store.setState(...)` faults on the unresolved binding and otherwise
commits the scoped transition. -/
def scopedSetViaCell (key : String) (u : Update)
    (cell : Option CompositeState) : Except JsError CompositeState :=
  match readPlaceholder cell with
  | .error e => .error e
  | .ok st => .ok (scopedSetStandalone key u st)

/-- C7: invoking a scoped mutator or the global reader before the engine
placeholder is resolved propagates a fault (the TypeError of the method
access on the undefined store binding) to the caller — nothing is caught
or defaulted to a recovered value — while after resolution both
capabilities succeed. -/
theorem C7_before_resolution_faults :
    (∀ key u, scopedSetViaCell key u none = .error .typeError) ∧
      fullGetStandalone none = .error .typeError ∧
      (∀ key u st, scopedSetViaCell key u (some st) =
        .ok (scopedSetStandalone key u st)) ∧
      (∀ st, fullGetStandalone (some st) = .ok st) :=
  ⟨fun _ _ => rfl, rfl, fun _ _ _ => rfl, fun _ => rfl⟩

-- ---------------------------------------------------------------------------
-- C9
-- ---------------------------------------------------------------------------

/-- JS number read `s.f` for a field holding a number (every state
reachable in the scenario has the field). -/
def getNum (r : SliceRec) (f : String) : Int :=
  match jsLookup r f with
  | some (.num n) => n
  | _ => 0

/-- JS list read `s.f` for a field holding a list of strings. -/
def getStrList (r : SliceRec) (f : String) : List String :=
  match jsLookup r f with
  | some (.strList l) => l
  | _ => []

/-- The `inc` action closure of the counter slice of the test suite:
`set(s => (with count: s.count + 1))`. -/
def incAction : CompositeState → CompositeState :=
  scopedSet "counter"
    (.updFn (fun s => some [("count", .num (getNum s "count" + 1))]))

/-- The `add` action closure of the todo slice:
`set(s => (with items: [...s.items, item]))`. -/
def addAction (item : String) : CompositeState → CompositeState :=
  scopedSet "todo"
    (.updFn (fun s =>
      some [("items", .strList (getStrList s "items" ++ [item]))]))

/-- Initial composite state of the two-slice scenario store (data
fields; the action closures themselves are `incAction`/`addAction`). -/
def scenarioInit : CompositeState :=
  [("counter", [("count", .num 0)]), ("todo", [("items", .strList [])])]

/-- C9: calling `inc()` twice and then `add("milk")` once on the
two-slice store yields exactly the composite state with counter.count
equal to 2 and todo.items equal to the one-element list "milk". -/
theorem C9_counter_todo_scenario :
    addAction "milk" (incAction (incAction scenarioInit)) =
      [("counter", [("count", Val.num 2)]),
       ("todo", [("items", Val.strList ["milk"])])] := by
  decide

end ZustandSliced
